import Mathlib

/-!
Shallow embedding of the core of `combined-chartink-scanner.py`:
record validation, trend classification, alignment filtering,
cross-source aggregation, atomic persistence, the scan loop, and the
market-hours gate.  Strings, rationals and naturals model Python
strings, floats and ints; browser/DOM collaborators are modelled by
their observable outcomes (probe/scan results as data).
-/

namespace Chartink

/-- A stock record as the scanner builds it (`extract_stock_data` dict):
symbol, price, change, volume, stock_trend, screener_type, and the
market_bias stamp added by `filter_stocks_by_market_trend`. -/
structure Stock where
  symbol : String
  price : ℚ
  change : ℚ
  volume : ℕ
  stock_trend : String
  screener_type : String
  market_bias : String
deriving DecidableEq, Repr

/-! ### Numeric-text parsing (models Python `float(...)` / `int(...)` on
the stripped screener cell text: optional sign, digits, optional decimal
point; exponent/inf/nan forms do not occur in this data and are out of
model). -/

/-- Parse a nonempty all-digit character run to its value; `none` otherwise. -/
def parseDigits (cs : List Char) : Option ℕ :=
  if cs ≠ [] ∧ cs.all (·.isDigit) then
    some (cs.foldl (fun n c => 10 * n + (c.toNat - 48)) 0)
  else none

/-- Split a character list on a separator (model of `str.split(sep)`
for a one-character separator; always returns at least one piece). -/
def splitOnChar (sep : Char) : List Char → List (List Char)
  | [] => [[]]
  | c :: cs =>
    let r := splitOnChar sep cs
    if c = sep then [] :: r
    else
      match r with
      | [] => [[c]]
      | h :: t => (c :: h) :: t

/-- `s.replace(c, '')` — drop every occurrence of one character. -/
def stripChar (c : Char) (s : String) : String :=
  String.mk (s.data.filter (fun x => x ≠ c))

/-- Model of Python `float(s)` on the sign/digits/decimal-point strings
this scraper produces (exponent/inf/nan forms do not occur in the
screener cell text and are out of model). -/
def parsePyFloat (s : String) : Option ℚ :=
  let sign : ℚ := if s.data.head? = some '-' then -1 else 1
  let body := if s.data.head? = some '-' ∨ s.data.head? = some '+' then s.data.drop 1 else s.data
  match splitOnChar '.' body with
  | [intPart] => (parseDigits intPart).map (fun n => sign * n)
  | [intPart, fracPart] =>
    if intPart = [] ∧ fracPart = [] then none
    else
      match (if intPart = [] then some 0 else parseDigits intPart),
            (if fracPart = [] then some 0 else parseDigits fracPart) with
      | some i, some f =>
        some (sign * ((i : ℚ) + (f : ℚ) / (10 : ℚ) ^ fracPart.length))
      | _, _ => none
  | _ => none

/-- Model of Python `int(s)`: optional sign, digits only. -/
def parsePyInt (s : String) : Option ℤ :=
  if s.data.head? = some '-' then (parseDigits (s.data.drop 1)).map (fun n => -(n : ℤ))
  else if s.data.head? = some '+' then (parseDigits (s.data.drop 1)).map (fun n => (n : ℤ))
  else (parseDigits s.data).map (fun n => (n : ℤ))

/-! ### Record Validator (`validate_stock_data`) -/

/-- Python truthiness of an optional string argument: `None` and `""`
are falsy, so the corresponding `if price:` / `if change:` /
`if volume:` guard skips parsing for them. -/
def truthy : Option String → Option String
  | some s => if s = "" then none else some s
  | none => none

/-- One `if field: parsed = parse(field)` step of `validate_stock_data`:
absent/empty fields are skipped, a supplied field that fails to parse
raises (`ValueError`/`AttributeError` caught and re-raised as
`ValueError "Invalid value format"`). -/
def checkField (parse : String → Bool) (raw : Option String) : Except String Unit :=
  match truthy raw with
  | none => Except.ok ()
  | some s => if parse s then Except.ok () else Except.error ("Invalid value format: " ++ s)

/-- `validate_stock_data(symbol, price, change, volume)`: raises
`ValueError` on an empty/too-short symbol, then parses the supplied
fields in order (price, change, volume), raising on the first
unparseable one; otherwise returns `True` (a boolean, not the parsed
record — the caller re-parses the fields itself). -/
def validate_stock_data (symbol : String) (price change volume : Option String) :
    Except String Bool :=
  if symbol = "" ∨ symbol.length < 2 then Except.error ("Invalid symbol: " ++ symbol)
  else
    match checkField (fun p => (parsePyFloat (stripChar ',' p)).isSome) price with
    | Except.error e => Except.error e
    | Except.ok _ =>
      match checkField (fun c => (parsePyFloat (stripChar ',' (stripChar '%' c))).isSome) change with
      | Except.error e => Except.error e
      | Except.ok _ =>
        match checkField (fun v => (parsePyInt (stripChar ',' v)).isSome) volume with
        | Except.error e => Except.error e
        | Except.ok _ => Except.ok true

/-- Did the call return normally (no exception)? -/
def exceptOk {ε α : Type} : Except ε α → Bool
  | Except.ok _ => true
  | Except.error _ => false

/-! ### Trend Classifier (`determine_stock_trend`) -/

/-- The Python value passed as `change`: a string (parsed with
`float`), a number, or `None` (raises `TypeError`). -/
inductive PyVal where
  | str (s : String)
  | num (q : ℚ)
  | none
deriving DecidableEq, Repr

/-- `float(change) if isinstance(change, str) else change`, with the
parse/`TypeError` failure represented as `none`. -/
def pyFloatOf : PyVal → Option ℚ
  | .str s => parsePyFloat s
  | .num q => some q
  | .none => Option.none

/-- `determine_stock_trend(change)`: `"bullish"` iff the numeric value
is strictly positive, `"bearish"` otherwise, `"unknown"` when the value
is not a number (`ValueError`/`TypeError`). -/
def determine_stock_trend (change : PyVal) : String :=
  match pyFloatOf change with
  | some q => if q > 0 then "bullish" else "bearish"
  | Option.none => "unknown"

/-! ### Alignment Filter (`filter_stocks_by_market_trend`) -/

/-- `stock['market_bias'] = market_bias` — the stamp applied to every
observation as the filter visits it. -/
def stampBias (b : String) (s : Stock) : Stock := { s with market_bias := b }

/-- The per-stock branch of the filter loop: after stamping, keep the
stock iff bias and individual trend align (or the bias is neutral). -/
def filterStep (market_bias : String) (stock : Stock) : Option Stock :=
  let stock := stampBias market_bias stock
  if market_bias = "bullish" ∧ stock.stock_trend = "bullish" then some stock
  else if market_bias = "bearish" ∧ stock.stock_trend = "bearish" then some stock
  else if market_bias = "neutral" then some stock
  else none

/-- `filter_stocks_by_market_trend(stocks, market_bias)`. -/
def filter_stocks_by_market_trend (stocks : List Stock) (market_bias : String) : List Stock :=
  if stocks.isEmpty then [] else stocks.filterMap (filterStep market_bias)

/-! ### Market-bias detection (`check_market_trend`)

The browser probes are modelled by their observable outcome: a failed
`load_page`/`run_scan` leaves the corresponding index list empty, a
successful probe yields the extracted index symbols. -/

/-- Outcome of one market probe (`load_page` + `run_scan` + extraction). -/
inductive ProbeResult where
  | failure
  | success (indices : List String)
deriving DecidableEq, Repr

/-- The index list `check_market_trend` ends up with for one probe:
`[]` when the probe load/scan failed, the extracted symbols otherwise. -/
def probeIndices : ProbeResult → List String
  | .failure => []
  | .success l => l

/-- `key_indices = ["NIFTY", "BANKNIFTY", "NIFTYFINSERVICE"]`. -/
def key_indices : List String := ["NIFTY", "BANKNIFTY", "NIFTYFINSERVICE"]

/-- The bias computation at the end of `check_market_trend`: count key
indices in each list; bullish/bearish by strict majority, else neutral. -/
def computeMarketBias (bullish_indices bearish_indices : List String) : String :=
  let bullish_count := (key_indices.filter (fun idx => bullish_indices.contains idx)).length
  let bearish_count := (key_indices.filter (fun idx => bearish_indices.contains idx)).length
  if bullish_count > bearish_count then "bullish"
  else if bearish_count > bullish_count then "bearish"
  else "neutral"

/-- `check_market_trend(driver, browser_mgr)` as a function of the two
probe outcomes.  The initial `market_bias = "unknown"` in the source is
dead: the trailing if/elif/else always overwrites it. -/
def check_market_trend (bullProbe bearProbe : ProbeResult) : String :=
  computeMarketBias (probeIndices bullProbe) (probeIndices bearProbe)

/-! ### Cross-Source Aggregator (`find_stocks_in_multiple_screeners`) -/

/-- The `results_data['screeners']` mapping: three fixed keys in the
`SCREENER_URLS` insertion order. -/
structure Screeners where
  price_crossover_200 : List Stock
  one_hour_rsi : List Stock
  five_min_rsi : List Stock
deriving DecidableEq, Repr

/-- A consolidated entry of `combined_stocks`. -/
structure CombinedStock where
  symbol : String
  price : ℚ
  change : ℚ
  volume : ℕ
  stock_trend : String
  market_bias : String
  screeners_found_in : List String
  match_count : ℕ
deriving DecidableEq, Repr

/-- `{stock['symbol'] for stock in list}` — the symbol set of one
screener, as a deduplicated list. -/
def symbolsOf (stocks : List Stock) : List String :=
  (stocks.map (·.symbol)).dedup

/-- Python set intersection `a & b` on symbol sets. -/
def listInter (a b : List String) : List String :=
  a.filter (fun s => b.contains s)

/-- Python set difference `a - b` on symbol sets. -/
def listDiff (a b : List String) : List String :=
  a.filter (fun s => ¬ b.contains s)

/-- The `combined_symbols` set: symbols in all three screeners, plus
each pairwise intersection minus the third (Python `A & B - C` parses
as `A & (B - C)`), deduplicated.  Python set iteration order is
unspecified; only membership is used by the claims. -/
def combinedSymbols (rd : Screeners) : List String :=
  let a := symbolsOf rd.price_crossover_200
  let b := symbolsOf rd.one_hour_rsi
  let c := symbolsOf rd.five_min_rsi
  let symbols_in_all := listInter (listInter a b) c
  let symbols_in_pc_and_1h := listInter a (listDiff b c)
  let symbols_in_pc_and_5m := listInter a (listDiff c b)
  let symbols_in_1h_and_5m := listInter b (listDiff c a)
  (symbols_in_all ++ symbols_in_pc_and_1h ++ symbols_in_pc_and_5m ++
    symbols_in_1h_and_5m).dedup

/-- All stocks across the three screeners, in the dict iteration order
(price_crossover_200, one_hour_rsi, five_min_rsi). -/
def allStocksList (rd : Screeners) : List Stock :=
  rd.price_crossover_200 ++ rd.one_hour_rsi ++ rd.five_min_rsi

/-- `all_stocks_by_symbol[sym]`: every stock instance with that symbol,
in source iteration order (first occurrence first). -/
def stockInstances (rd : Screeners) (sym : String) : List Stock :=
  (allStocksList rd).filter (fun s => s.symbol = sym)

/-- Build one consolidated entry for a combined symbol: base fields
from the first recorded instance, `screeners_found_in` from every
instance's `screener_type`, `match_count` its length; `none` models
the `if not stock_instances: continue` guard. -/
def mkCombined (rd : Screeners) (sym : String) : Option CombinedStock :=
  match stockInstances rd sym with
  | [] => none
  | base_stock :: rest =>
    let insts := base_stock :: rest
    some { symbol := sym
           price := base_stock.price
           change := base_stock.change
           volume := base_stock.volume
           stock_trend := base_stock.stock_trend
           market_bias := base_stock.market_bias
           screeners_found_in := insts.map (·.screener_type)
           match_count := (insts.map (·.screener_type)).length }

/-- `find_stocks_in_multiple_screeners(results_data)`. -/
def find_stocks_in_multiple_screeners (rd : Screeners) : List CombinedStock :=
  (combinedSymbols rd).filterMap (mkCombined rd)

/-! ### Persistent State Store (`save_scan_results`, `load_current_results`)

The filesystem is modelled by the contents of the canonical file
`RESULTS_FILE` and the temporary `RESULTS_FILE.tmp`; a file is absent
(`none`), fully written (`good`), or partially written (`truncated`,
i.e. `json.load` on it would fail). -/

/-- On-disk content of one file, parameterised by the data type. -/
inductive FileContent (α : Type) where
  | good (a : α)
  | truncated
deriving DecidableEq, Repr

/-- The two files `save_scan_results` touches. -/
structure FileSystem (α : Type) where
  canonical : Option (FileContent α)
  temp : Option (FileContent α)
deriving DecidableEq, Repr

/-- `load_current_results()`: missing file yields the default initial
state, an unreadable/corrupt file is caught and also yields the
default, otherwise the stored data is returned. -/
def load_current_results {α : Type} (dflt : α) (fs : FileSystem α) : α :=
  match fs.canonical with
  | some (.good a) => a
  | some .truncated => dflt
  | Option.none => dflt

/-- `save_scan_results(data)` with fault injection: `wFault` makes the
temp-file write raise after a partial write, `rFault` makes
`os.replace` raise (leaving both files as they were).  Returns the
resulting filesystem and whether the function re-raised.  The `except`
handler removes the temp file when it exists before re-raising. -/
def save_scan_results {α : Type} (fs : FileSystem α) (data : α)
    (wFault rFault : Bool) : FileSystem α × Bool :=
  if wFault then
    -- json.dump raises mid-write: temp left truncated, handler removes it
    ({ canonical := fs.canonical, temp := Option.none }, true)
  else
    let fs1 : FileSystem α := { fs with temp := some (.good data) }
    if rFault then
      -- os.replace raises: canonical untouched, handler removes temp
      ({ canonical := fs1.canonical, temp := Option.none }, true)
    else
      -- atomic replace: temp becomes the canonical file
      ({ canonical := some (.good data), temp := Option.none }, false)

/-! ### Per-source scan step (`run_screener`) and the cycle -/

/-- Outcome of scanning one screener page, as observed by
`run_screener`: `load_page` failed, `run_scan` failed, or extraction
produced a (possibly empty) stock list. -/
inductive ScanOutcome where
  | loadFailed
  | scanFailed
  | extracted (stocks : List Stock)
deriving DecidableEq, Repr

/-- The three configured screener keys, in `SCREENER_URLS` order. -/
def screener_keys : List String := ["price_crossover_200", "one_hour_rsi", "five_min_rsi"]

/-- `results_data['screeners'][key]`. -/
def getScreener (rd : Screeners) (key : String) : List Stock :=
  if key = "price_crossover_200" then rd.price_crossover_200
  else if key = "one_hour_rsi" then rd.one_hour_rsi
  else if key = "five_min_rsi" then rd.five_min_rsi
  else []

/-- `results_data['screeners'][key] = stocks`. -/
def setScreener (rd : Screeners) (key : String) (stocks : List Stock) : Screeners :=
  if key = "price_crossover_200" then { rd with price_crossover_200 := stocks }
  else if key = "one_hour_rsi" then { rd with one_hour_rsi := stocks }
  else if key = "five_min_rsi" then { rd with five_min_rsi := stocks }
  else rd

/-- `run_screener(driver, screener_type, url, market_bias, results_data)`:
on load/scan failure the prior entry is left untouched; on extraction
the entry is replaced by the bias-filtered list (or `[]` when nothing
was extracted). -/
def run_screener (outcome : ScanOutcome) (screener_type : String)
    (market_bias : String) (rd : Screeners) : Screeners :=
  match outcome with
  | .loadFailed => rd
  | .scanFailed => rd
  | .extracted all_stock_data =>
    if all_stock_data.isEmpty then setScreener rd screener_type []
    else setScreener rd screener_type
      (filter_stocks_by_market_trend all_stock_data market_bias)

/-- The `for screener_type, url in SCREENER_URLS.items():` loop of one
cycle, driven by each screener's scan outcome. -/
def runAllScreeners (outcomes : String → ScanOutcome) (market_bias : String)
    (rd : Screeners) : Screeners :=
  screener_keys.foldl (fun acc key => run_screener (outcomes key) key market_bias acc) rd

/-! ### The main loop (`main`)

One iteration of `while True:` either completes (possibly skipping work
outside market hours), raises an unhandled exception, or is interrupted
by `KeyboardInterrupt`.  The `try` block encloses the *whole* loop, so
the first raising iteration leaves the loop; the `finally` teardown
always runs. -/

/-- Observable behaviour of one loop iteration. -/
inductive CycleEvent where
  | ok
  | exn
  | interrupt
deriving DecidableEq, Repr

/-- How the loop ended on a finite trace of iteration behaviours. -/
inductive ExitKind where
  | critical
  | interrupted
  | running
deriving DecidableEq, Repr

/-- Result of running `main`'s loop on a trace: how many iterations
were entered, how the loop ended, and whether the `finally` teardown
ran. -/
structure LoopResult where
  cyclesEntered : ℕ
  exit : ExitKind
  teardownRan : Bool
deriving DecidableEq, Repr

/-- The `while True:` loop inside `main`'s `try`: iterations run in
sequence until one raises (`except Exception` → critical log) or is
interrupted (`except KeyboardInterrupt`); the trace ending with the
loop still alive is `running`. -/
def main_loop : List CycleEvent → ℕ × ExitKind
  | [] => (0, .running)
  | .ok :: rest =>
    let r := main_loop rest
    (r.1 + 1, r.2)
  | .exn :: _ => (1, .critical)
  | .interrupt :: _ => (1, .interrupted)

/-- `main` around the loop: the `finally` block (browser teardown)
runs on every exit path. -/
def main_run (trace : List CycleEvent) : LoopResult :=
  let r := main_loop trace
  { cyclesEntered := r.1, exit := r.2, teardownRan := true }

/-! ### Market-hours gate (`is_market_hours`)

A moment is modelled by its weekday (0 = Monday … 6 = Sunday) and its
time of day; `datetime.replace` keeps the date and the microsecond, so
the two comparisons reduce to lexicographic time-of-day comparison on
the same date. -/

/-- A timezone-localised moment, date held abstract (both `replace`
calls preserve it). -/
structure DateTime where
  weekday : ℕ
  hour : ℕ
  minute : ℕ
  second : ℕ
  microsecond : ℕ
deriving DecidableEq, Repr

/-- Python `datetime` ≤ on two moments of the same date:
lexicographic on (hour, minute, second, microsecond). -/
def timeLe (a b : DateTime) : Bool :=
  if a.hour ≠ b.hour then a.hour < b.hour
  else if a.minute ≠ b.minute then a.minute < b.minute
  else if a.second ≠ b.second then a.second < b.second
  else a.microsecond ≤ b.microsecond

/-- `is_market_hours()`: weekend check, then
`market_start = now.replace(hour=0, minute=0, second=0)`,
`market_end = now.replace(hour=23, minute=59, second=0)` (microsecond
preserved by `replace`), and `market_start <= now <= market_end`. -/
def is_market_hours (now : DateTime) : Bool :=
  if now.weekday ≥ 5 then false
  else
    let market_start : DateTime := { now with hour := 0, minute := 0, second := 0 }
    let market_end : DateTime := { now with hour := 23, minute := 59, second := 0 }
    timeLe market_start now && timeLe now market_end

/-! ### Concrete fixtures used by counterexamples and witnesses -/

/-- A minimal bullish stock record for a given symbol and screener. -/
def mkStock (sym scr : String) : Stock :=
  { symbol := sym, price := 1, change := 1, volume := 1, stock_trend := "bullish",
    screener_type := scr, market_bias := "neutral" }

/-- Scenario A of the spec: S1 = {AAA, BBB}, S2 = {BBB, CCC}, S3 = ∅. -/
def rdScenarioA : Screeners :=
  { price_crossover_200 := [mkStock "AAA" "price_crossover_200",
                            mkStock "BBB" "price_crossover_200"],
    one_hour_rsi := [mkStock "BBB" "one_hour_rsi", mkStock "CCC" "one_hour_rsi"],
    five_min_rsi := [] }

/-- A per-source input in which symbol BBB repeats within the first
source's list and also appears in the second source. -/
def rdDupWithinSource : Screeners :=
  { price_crossover_200 := [mkStock "BBB" "price_crossover_200",
                            mkStock "BBB" "price_crossover_200"],
    one_hour_rsi := [mkStock "BBB" "one_hour_rsi"],
    five_min_rsi := [] }

/-! ## Claims -/

/-- **C1, counterexample.**  The claim says that when both market-bias
probe loads fail (no bullish and no bearish index symbols collected),
`check_market_trend` yields bias `"unknown"`.  On the code, both counts
are 0, `0 > 0` fails both ways, and the trailing `else` yields
`"neutral"`; the initial `market_bias = "unknown"` is unconditionally
overwritten. -/
theorem check_market_trend_both_fail_not_unknown :
    check_market_trend ProbeResult.failure ProbeResult.failure ≠ "unknown" := by
  decide

/-- **C1, amended.**  If both market-bias probe loads fail (so no
bullish and no bearish index symbols are collected), the market-bias
detection step yields bias `"neutral"` for that cycle (zero equals zero
in the key-index majority vote), never `"unknown"`. -/
theorem check_market_trend_both_fail_neutral :
    check_market_trend ProbeResult.failure ProbeResult.failure = "neutral" := by
  decide

/-- **C2, counterexample.**  The claim says an unhandled exception
inside one cycle is caught at the loop boundary and the loop proceeds
to the next cycle.  On the code the `try` encloses the whole
`while True:` loop, so a trace whose first cycle raises and whose
second would complete enters only one cycle and exits critically —
the second cycle never runs. -/
theorem main_loop_exn_not_resumed :
    (main_run [CycleEvent.exn, CycleEvent.ok]).exit = ExitKind.critical
    ∧ (main_run [CycleEvent.exn, CycleEvent.ok]).cyclesEntered = 1
    ∧ (main_run [CycleEvent.exn, CycleEvent.ok]).cyclesEntered ≠ 2 := by
  decide

/-- Helper: `main_loop` on a run of completing cycles followed by a
raising/interrupting one stops at that cycle. -/
theorem main_loop_stops_at_first_raise (pre rest : List CycleEvent) (e : CycleEvent)
    (hpre : ∀ x ∈ pre, x = CycleEvent.ok) (he : e ≠ CycleEvent.ok) :
    main_loop (pre ++ e :: rest) =
      (pre.length + 1,
       if e = CycleEvent.exn then ExitKind.critical else ExitKind.interrupted) := by
  induction pre with
  | nil =>
    cases e with
    | ok => exact absurd rfl he
    | exn => simp [main_loop]
    | interrupt => simp [main_loop]
  | cons x tl ih =>
    have hx : x = CycleEvent.ok := hpre x (List.mem_cons_self x tl)
    subst hx
    have htl : ∀ y ∈ tl, y = CycleEvent.ok := fun y hy => hpre y (List.mem_cons_of_mem _ hy)
    rw [List.cons_append]
    show ((main_loop (tl ++ e :: rest)).1 + 1, (main_loop (tl ++ e :: rest)).2) = _
    rw [ih htl]
    rfl

/-- **C2, amended.**  An unhandled exception raised in any cycle is
caught once, at the `try` boundary that encloses the whole loop: the
loop exits with a critical log after the raising cycle, later cycles
never run, and teardown (the `finally` block) still executes; an
explicit external interruption exits the loop the same way.  The loop
does not proceed to the next cycle after an exception. -/
theorem main_run_exits_on_first_raise (pre rest : List CycleEvent) (e : CycleEvent)
    (hpre : ∀ x ∈ pre, x = CycleEvent.ok) (he : e ≠ CycleEvent.ok) :
    main_run (pre ++ e :: rest) =
      { cyclesEntered := pre.length + 1,
        exit := if e = CycleEvent.exn then ExitKind.critical else ExitKind.interrupted,
        teardownRan := true } := by
  unfold main_run
  rw [main_loop_stops_at_first_raise pre rest e hpre he]

/-- **C2, witness.**  One completed cycle, then an exception, then a
cycle that would have completed: exactly two cycles are entered, the
exit is critical, teardown runs. -/
theorem main_run_exits_on_first_raise_witness :
    main_run [CycleEvent.ok, CycleEvent.exn, CycleEvent.ok] =
      { cyclesEntered := 2, exit := ExitKind.critical, teardownRan := true } :=
  main_run_exits_on_first_raise [CycleEvent.ok] [CycleEvent.ok] CycleEvent.exn
    (by decide) (by decide)

/-- **C7 (confirmed).**  `determine_stock_trend` returns `"bullish"`
for every numeric change strictly greater than 0, `"bearish"` for every
numeric change at most 0 (in particular for 0 itself), and `"unknown"`
when the change value is not a number (`None`, or a string `float`
cannot parse). -/
theorem determine_stock_trend_spec :
    (∀ x : ℚ, x > 0 → determine_stock_trend (PyVal.num x) = "bullish")
    ∧ (∀ x : ℚ, x ≤ 0 → determine_stock_trend (PyVal.num x) = "bearish")
    ∧ determine_stock_trend (PyVal.num 0) = "bearish"
    ∧ determine_stock_trend PyVal.none = "unknown"
    ∧ (∀ s : String, parsePyFloat s = Option.none →
        determine_stock_trend (PyVal.str s) = "unknown") := by
  refine ⟨?_, ?_, by decide, rfl, ?_⟩
  · intro x hx
    simp [determine_stock_trend, pyFloatOf, hx]
  · intro x hx
    simp [determine_stock_trend, pyFloatOf, not_lt.mpr hx]
  · intro s hs
    simp [determine_stock_trend, pyFloatOf, hs]

/-- **C7, witness.**  Concrete classifications: +2 is bullish, −3 and 0
are bearish, a non-numeric string is unknown. -/
theorem determine_stock_trend_spec_witness :
    determine_stock_trend (PyVal.num 2) = "bullish"
    ∧ determine_stock_trend (PyVal.num (-3)) = "bearish"
    ∧ determine_stock_trend (PyVal.str "abc") = "unknown" :=
  ⟨determine_stock_trend_spec.1 2 (by norm_num),
   determine_stock_trend_spec.2.1 (-3) (by norm_num),
   determine_stock_trend_spec.2.2.2.2 "abc" (by decide)⟩

/-- Helper: the `if not stocks: return []` guard is redundant — the
filter loop on an empty list also yields `[]`. -/
theorem filter_stocks_eq_filterMap (stocks : List Stock) (b : String) :
    filter_stocks_by_market_trend stocks b = stocks.filterMap (filterStep b) := by
  cases stocks <;> simp [filter_stocks_by_market_trend]

/-- Helper: the bullish branch keeps exactly the bullish-trend stocks. -/
theorem filterMap_filterStep_bullish (obs : List Stock) :
    obs.filterMap (filterStep "bullish")
      = (obs.map (stampBias "bullish")).filter (fun s => s.stock_trend == "bullish") := by
  induction obs with
  | nil => rfl
  | cons s tl ih =>
    by_cases h : s.stock_trend = "bullish" <;>
      simp [filterStep, stampBias, h, ih]

/-- Helper: the bearish branch keeps exactly the bearish-trend stocks. -/
theorem filterMap_filterStep_bearish (obs : List Stock) :
    obs.filterMap (filterStep "bearish")
      = (obs.map (stampBias "bearish")).filter (fun s => s.stock_trend == "bearish") := by
  induction obs with
  | nil => rfl
  | cons s tl ih =>
    by_cases h : s.stock_trend = "bearish" <;>
      simp [filterStep, stampBias, h, ih]

/-- Helper: the neutral branch keeps every stock, stamped. -/
theorem filterMap_filterStep_neutral (obs : List Stock) :
    obs.filterMap (filterStep "neutral") = obs.map (stampBias "neutral") := by
  induction obs with
  | nil => rfl
  | cons s tl ih => simp [filterStep, ih]

/-- Helper: an unknown bias matches no branch — everything is dropped. -/
theorem filterMap_filterStep_unknown (obs : List Stock) :
    obs.filterMap (filterStep "unknown") = [] := by
  induction obs with
  | nil => rfl
  | cons s tl ih => simp [filterStep, ih]

/-- **C6 (confirmed).**  `filter_stocks_by_market_trend` keeps exactly
the bullish-trend observations under a bullish bias, exactly the
bearish-trend ones under a bearish bias, every observation under a
neutral bias (same members in the same order — each stamped with the
bias, as §4.3 specifies for every kept observation, so the symbol
sequence is exactly the input's), and none at all under an unknown
bias. -/
theorem filter_stocks_by_market_trend_spec (obs : List Stock) :
    filter_stocks_by_market_trend obs "bullish"
      = (obs.map (stampBias "bullish")).filter (fun s => s.stock_trend == "bullish")
    ∧ filter_stocks_by_market_trend obs "bearish"
      = (obs.map (stampBias "bearish")).filter (fun s => s.stock_trend == "bearish")
    ∧ filter_stocks_by_market_trend obs "neutral" = obs.map (stampBias "neutral")
    ∧ (filter_stocks_by_market_trend obs "neutral").map (fun s => s.symbol)
      = obs.map (fun s => s.symbol)
    ∧ filter_stocks_by_market_trend obs "unknown" = [] := by
  refine ⟨?_, ?_, ?_, ?_, ?_⟩
  · rw [filter_stocks_eq_filterMap, filterMap_filterStep_bullish]
  · rw [filter_stocks_eq_filterMap, filterMap_filterStep_bearish]
  · rw [filter_stocks_eq_filterMap, filterMap_filterStep_neutral]
  · rw [filter_stocks_eq_filterMap, filterMap_filterStep_neutral]
    simp [stampBias]
  · rw [filter_stocks_eq_filterMap, filterMap_filterStep_unknown]

/-- **C5 (confirmed).**  `save_scan_results` writes the full state to
the temporary file and installs it with one atomic `os.replace`.  On
any failure (fault while writing the temp file, or fault in the
replace itself) the handler removes the temporary file, the canonical
file keeps its previous content, and the call re-raises; a subsequent
`load_current_results` then returns exactly what it returned before the
failed save.  On success the canonical file holds the fully written new
state. -/
theorem save_scan_results_atomic {α : Type} (fs : FileSystem α) (data dflt : α)
    (wF rF : Bool) :
    (save_scan_results fs data wF rF).1.temp = Option.none
    ∧ ((save_scan_results fs data wF rF).2 = (wF || rF))
    ∧ ((save_scan_results fs data wF rF).2 = true →
        (save_scan_results fs data wF rF).1.canonical = fs.canonical
        ∧ load_current_results dflt (save_scan_results fs data wF rF).1
            = load_current_results dflt fs)
    ∧ ((save_scan_results fs data wF rF).2 = false →
        (save_scan_results fs data wF rF).1.canonical = some (FileContent.good data)
        ∧ load_current_results dflt (save_scan_results fs data wF rF).1 = data) := by
  cases wF <;> cases rF <;>
    simp [save_scan_results, load_current_results]

/-- **C5, witness.**  A replace-step fault on a filesystem holding a
previously persisted value 7: the save raises, the canonical file still
holds 7, the temp file is gone, and a load still returns 7; the
fault-free save of 9 succeeds and a load then returns 9. -/
theorem save_scan_results_atomic_witness :
    (save_scan_results (α := ℕ) ⟨some (FileContent.good 7), Option.none⟩ 9 false true).1.canonical
        = some (FileContent.good 7)
    ∧ load_current_results 0
        (save_scan_results (α := ℕ) ⟨some (FileContent.good 7), Option.none⟩ 9 false true).1 = 7
    ∧ load_current_results 0
        (save_scan_results (α := ℕ) ⟨some (FileContent.good 7), Option.none⟩ 9 false false).1 = 9 := by
  refine ⟨?_, ?_, ?_⟩
  · exact ((save_scan_results_atomic ⟨some (FileContent.good 7), Option.none⟩ 9 0 false true).2.2.1
      (by decide)).1
  · exact ((save_scan_results_atomic ⟨some (FileContent.good 7), Option.none⟩ 9 0 false true).2.2.1
      (by decide)).2
  · exact ((save_scan_results_atomic ⟨some (FileContent.good 7), Option.none⟩ 9 0 false false).2.2.2
      (by decide)).2

/-- **C10 (confirmed).**  Despite the "9:15 AM to 3:30 PM" comment, the
gate compares against `now.replace(hour=0, minute=0, second=0)` and
`now.replace(hour=23, minute=59, second=0)` (both keep the date and the
microsecond), so on any valid clock reading it returns `false` exactly
on weekends (weekday ≥ 5) and in the final minute of a weekday past its
first second (23:59:01 onwards, part of the day's final minute).  In
particular every Monday–Friday moment at or before 23:59:00 passes the
gate. -/
theorem is_market_hours_spec (d : DateTime) (hh : d.hour ≤ 23) (hm : d.minute ≤ 59) :
    is_market_hours d = false ↔
      (5 ≤ d.weekday ∨ (d.hour = 23 ∧ d.minute = 59 ∧ 1 ≤ d.second)) := by
  obtain ⟨w, hr, mi, se, us⟩ := d
  simp only at hh hm
  unfold is_market_hours timeLe
  by_cases hw : 5 ≤ w
  · simp [hw]
  · simp only [hw, if_false]
    split_ifs <;> simp <;> omega

/-- **C10, witness.**  Monday 23:59:01 is rejected (final minute);
Sunday mid-morning is rejected (weekend). -/
theorem is_market_hours_spec_witness :
    is_market_hours ⟨0, 23, 59, 1, 0⟩ = false ∧ is_market_hours ⟨6, 10, 0, 0, 0⟩ = false := by
  constructor
  · exact (is_market_hours_spec ⟨0, 23, 59, 1, 0⟩ (by decide) (by decide)).mpr
      (Or.inr ⟨rfl, rfl, by decide⟩)
  · exact (is_market_hours_spec ⟨6, 10, 0, 0, 0⟩ (by decide) (by decide)).mpr
      (Or.inl (by decide))

/-- Helper: a field check passes exactly when the field is absent,
empty (Python falsy, skipped by `if field:`), or parseable. -/
theorem checkField_ok_iff (f : String → Bool) (x : Option String) :
    checkField f x = Except.ok () ↔ (∀ s, truthy x = some s → f s = true) := by
  unfold checkField
  cases hx : truthy x with
  | none => simp
  | some s =>
    by_cases hf : f s = true <;> simp [hf]

/-- **C8, counterexample.**  The claim says successful validation
returns the typed stock observation.  The code's `validate_stock_data`
returns the bare boolean `True` and discards every parsed value (the
caller re-parses the raw fields itself), as this fully valid record
shows. -/
theorem validate_stock_data_returns_bool :
    validate_stock_data "RELIANCE" (some "2,500.50") (some "1.25%") (some "1,000,000")
      = Except.ok true := by
  rfl

/-- **C8, amended.**  `validate_stock_data` fails with `ValueError`
exactly when the symbol is empty or shorter than 2 characters, or when
some supplied non-empty price/change/volume text fails to parse after
stripping separators and percent signs (a malformed field is never
silently coerced to zero — it raises); on success it returns `True`,
not a typed observation. -/
theorem validate_stock_data_spec (symbol : String) (price change volume : Option String) :
    (exceptOk (validate_stock_data symbol price change volume) = true ↔
      (¬(symbol = "" ∨ symbol.length < 2)
        ∧ (∀ p, truthy price = some p → (parsePyFloat (stripChar ',' p)).isSome = true)
        ∧ (∀ c, truthy change = some c →
            (parsePyFloat (stripChar ',' (stripChar '%' c))).isSome = true)
        ∧ (∀ v, truthy volume = some v → (parsePyInt (stripChar ',' v)).isSome = true)))
    ∧ (exceptOk (validate_stock_data symbol price change volume) = true →
        validate_stock_data symbol price change volume = Except.ok true) := by
  unfold validate_stock_data
  by_cases hs : symbol = "" ∨ symbol.length < 2
  · simp [hs, exceptOk]
  · rw [if_neg hs]
    rcases h1 : checkField (fun p => (parsePyFloat (stripChar ',' p)).isSome) price with e1 | u1
    · refine ⟨⟨fun h => absurd h (by simp [exceptOk]), ?_⟩, fun h => absurd h (by simp [exceptOk])⟩
      rintro ⟨_, hp, _, _⟩
      rw [(checkField_ok_iff _ _).mpr hp] at h1
      exact Except.noConfusion h1
    · rcases h2 : checkField
          (fun c => (parsePyFloat (stripChar ',' (stripChar '%' c))).isSome) change with e2 | u2
      · refine ⟨⟨fun h => absurd h (by simp [exceptOk]), ?_⟩, fun h => absurd h (by simp [exceptOk])⟩
        rintro ⟨_, _, hc, _⟩
        rw [(checkField_ok_iff _ _).mpr hc] at h2
        exact Except.noConfusion h2
      · rcases h3 : checkField (fun v => (parsePyInt (stripChar ',' v)).isSome) volume with e3 | u3
        · refine ⟨⟨fun h => absurd h (by simp [exceptOk]), ?_⟩, fun h => absurd h (by simp [exceptOk])⟩
          rintro ⟨_, _, _, hv⟩
          rw [(checkField_ok_iff _ _).mpr hv] at h3
          exact Except.noConfusion h3
        · refine ⟨⟨fun _ => ⟨hs, ?_, ?_, ?_⟩, fun _ => rfl⟩, fun _ => rfl⟩
          · exact (checkField_ok_iff _ _).mp (by rw [h1])
          · exact (checkField_ok_iff _ _).mp (by rw [h2])
          · exact (checkField_ok_iff _ _).mp (by rw [h3])

/-- **C8, witness.**  A record with a well-formed symbol, a price and a
volume that parse, and no change field supplied validates successfully
(returning `True`). -/
theorem validate_stock_data_spec_witness :
    exceptOk (validate_stock_data "TCS" (some "3,500") Option.none (some "42")) = true :=
  (validate_stock_data_spec "TCS" (some "3,500") Option.none (some "42")).1.mpr
    ⟨by decide,
     fun p hp => by
       simp only [truthy, if_neg (by decide : ¬("3,500" : String) = "")] at hp
       rw [← Option.some.inj hp]
       decide,
     fun c hc => by simp [truthy] at hc,
     fun v hv => by
       simp only [truthy, if_neg (by decide : ¬("42" : String) = "")] at hv
       rw [← Option.some.inj hv]
       decide⟩

/-- Helper: membership in a screener's symbol set. -/
theorem mem_symbolsOf {l : List Stock} {sym : String} :
    sym ∈ symbolsOf l ↔ ∃ s ∈ l, s.symbol = sym := by
  simp [symbolsOf, List.mem_dedup]

/-- Helper: the four-way union computed by
`find_stocks_in_multiple_screeners` contains exactly the symbols lying
in at least two of the three screener symbol sets. -/
theorem mem_combinedSymbols (rd : Screeners) (sym : String) :
    sym ∈ combinedSymbols rd ↔
      ((sym ∈ symbolsOf rd.price_crossover_200 ∧ sym ∈ symbolsOf rd.one_hour_rsi)
       ∨ (sym ∈ symbolsOf rd.price_crossover_200 ∧ sym ∈ symbolsOf rd.five_min_rsi)
       ∨ (sym ∈ symbolsOf rd.one_hour_rsi ∧ sym ∈ symbolsOf rd.five_min_rsi)) := by
  unfold combinedSymbols listInter listDiff
  simp only [List.mem_dedup, List.mem_append, List.mem_filter, List.elem_iff,
    decide_eq_true_eq, Bool.not_eq_true', decide_eq_false_iff_not]
  tauto

/-- Helper: a consolidated entry keeps the symbol it was built for. -/
theorem mkCombined_symbol {rd : Screeners} {sym : String} {c : CombinedStock}
    (h : mkCombined rd sym = some c) : c.symbol = sym := by
  unfold mkCombined at h
  rcases hs : stockInstances rd sym with _ | ⟨b, r⟩
  · rw [hs] at h
    exact Option.noConfusion h
  · rw [hs] at h
    rw [← Option.some.inj h]

/-- Helper: a symbol with at least one recorded instance yields a
consolidated entry. -/
theorem mkCombined_isSome {rd : Screeners} {sym : String}
    (h : stockInstances rd sym ≠ []) :
    ∃ c, mkCombined rd sym = some c ∧ c.symbol = sym := by
  unfold mkCombined
  rcases hs : stockInstances rd sym with _ | ⟨b, r⟩
  · exact absurd hs h
  · exact ⟨_, rfl, rfl⟩

/-- Helper: a symbol present in any screener's symbol set has a
recorded instance. -/
theorem stockInstances_ne_nil {rd : Screeners} {sym : String}
    (h : sym ∈ symbolsOf rd.price_crossover_200 ∨ sym ∈ symbolsOf rd.one_hour_rsi
       ∨ sym ∈ symbolsOf rd.five_min_rsi) :
    stockInstances rd sym ≠ [] := by
  have hex : ∃ s ∈ allStocksList rd, s.symbol = sym := by
    rcases h with h | h | h <;> rcases mem_symbolsOf.mp h with ⟨s, hs, hsym⟩ <;>
      exact ⟨s, by simp [allStocksList, hs], hsym⟩
  rcases hex with ⟨s, hs, hsym⟩
  have hmem : s ∈ stockInstances rd sym := by
    simp [stockInstances, List.mem_filter, hs, hsym]
  intro hnil
  rw [hnil] at hmem
  exact List.not_mem_nil s hmem

/-- **C4 (confirmed).**  A symbol appears in the aggregator's combined
output exactly when it lies in at least two of the three screeners'
symbol sets (union of all pairwise intersections, which subsumes the
triple intersection); in particular a symbol present in only one source
never appears, and an empty source list merely contributes no symbols —
the aggregation is total and never errors. -/
theorem find_stocks_symbols_spec (rd : Screeners) (sym : String) :
    sym ∈ (find_stocks_in_multiple_screeners rd).map (fun c => c.symbol) ↔
      ((sym ∈ symbolsOf rd.price_crossover_200 ∧ sym ∈ symbolsOf rd.one_hour_rsi)
       ∨ (sym ∈ symbolsOf rd.price_crossover_200 ∧ sym ∈ symbolsOf rd.five_min_rsi)
       ∨ (sym ∈ symbolsOf rd.one_hour_rsi ∧ sym ∈ symbolsOf rd.five_min_rsi)) := by
  rw [← mem_combinedSymbols]
  unfold find_stocks_in_multiple_screeners
  constructor
  · intro h
    rcases List.mem_map.mp h with ⟨c, hc, hcsym⟩
    rcases List.mem_filterMap.mp hc with ⟨s, hsmem, hmk⟩
    rwa [← hcsym, mkCombined_symbol hmk]
  · intro h
    have hne : stockInstances rd sym ≠ [] := by
      apply stockInstances_ne_nil
      rcases (mem_combinedSymbols rd sym).mp h with ⟨h1, _⟩ | ⟨h1, _⟩ | ⟨h1, _⟩
      · exact Or.inl h1
      · exact Or.inl h1
      · exact Or.inr (Or.inl h1)
    rcases mkCombined_isSome hne with ⟨c, hmk, hcsym⟩
    exact List.mem_map.mpr ⟨c, List.mem_filterMap.mpr ⟨sym, h, hmk⟩, hcsym⟩

/-- **C3, counterexample.**  The claim says `sourcesMatched` never
contains duplicate source identifiers, for any input — including a
symbol repeating within one source's list.  But `all_stocks_by_symbol`
appends every instance, so with BBB listed twice in the first screener
and once in the second, the consolidated entry's `screeners_found_in`
names `price_crossover_200` twice (and `match_count` is 3 although only
2 sources matched). -/
theorem combined_dup_source_counterexample :
    (find_stocks_in_multiple_screeners rdDupWithinSource).map (fun c => c.screeners_found_in)
      = [["price_crossover_200", "price_crossover_200", "one_hour_rsi"]]
    ∧ ¬ (["price_crossover_200", "price_crossover_200", "one_hour_rsi"] : List String).Nodup := by
  constructor
  · decide
  · decide

/-- Helper: `stockInstances` splits along the three screener lists. -/
theorem stockInstances_append (rd : Screeners) (sym : String) :
    stockInstances rd sym =
      rd.price_crossover_200.filter (fun s => s.symbol = sym)
      ++ rd.one_hour_rsi.filter (fun s => s.symbol = sym)
      ++ rd.five_min_rsi.filter (fun s => s.symbol = sym) := by
  simp [stockInstances, allStocksList, List.filter_append]

/-- Helper: a symbol in at least two screener symbol sets has at least
two recorded instances. -/
theorem two_le_stockInstances_length {rd : Screeners} {sym : String}
    (h : sym ∈ combinedSymbols rd) : 2 ≤ (stockInstances rd sym).length := by
  have key : ∀ l : List Stock, sym ∈ symbolsOf l →
      0 < (l.filter (fun s => s.symbol = sym)).length := by
    intro l hl
    rcases mem_symbolsOf.mp hl with ⟨s, hs, hsym⟩
    exact List.length_pos_of_mem (List.mem_filter.mpr ⟨hs, by simp [hsym]⟩)
  rw [stockInstances_append, List.length_append, List.length_append]
  rcases (mem_combinedSymbols rd sym).mp h with ⟨ha, hb⟩ | ⟨ha, hb⟩ | ⟨ha, hb⟩
  · have := key _ ha; have := key _ hb; omega
  · have := key _ ha; have := key _ hb; omega
  · have := key _ ha; have := key _ hb; omega

/-- Helper: when no symbol repeats within a list, at most one of its
records carries any given symbol. -/
theorem length_filter_le_one {l : List Stock} (sym : String)
    (h : (l.map (fun s => s.symbol)).Nodup) :
    (l.filter (fun s => s.symbol = sym)).length ≤ 1 := by
  induction l with
  | nil => simp
  | cons a tl ih =>
    rw [List.map_cons, List.nodup_cons] at h
    by_cases ha : a.symbol = sym
    · have hnil : tl.filter (fun s => decide (s.symbol = sym)) = [] := by
        rw [List.filter_eq_nil_iff]
        intro x hx
        simp only [decide_eq_true_eq]
        intro hxs
        exact h.1 (List.mem_map.mpr ⟨x, hx, by rw [hxs, ha]⟩)
      simp [List.filter_cons, ha, hnil]
    · simp only [List.filter_cons, ha, decide_eq_true_eq, if_false]
      simpa using ih h.2

/-- Helper: lists of length at most one have no duplicates. -/
theorem nodup_of_length_le_one {α : Type} {l : List α} (h : l.length ≤ 1) : l.Nodup := by
  match l with
  | [] => exact List.nodup_nil
  | [x] => exact List.nodup_singleton x
  | x :: y :: t =>
    exfalso
    simp only [List.length_cons] at h
    omega

/-- Helper: under per-source symbol uniqueness and correct
`screener_type` stamps, the provenance list of any symbol has no
duplicate source identifiers. -/
theorem stockInstances_types_nodup (rd : Screeners) (sym : String)
    (h1 : (rd.price_crossover_200.map (fun s => s.symbol)).Nodup)
    (h2 : (rd.one_hour_rsi.map (fun s => s.symbol)).Nodup)
    (h3 : (rd.five_min_rsi.map (fun s => s.symbol)).Nodup)
    (t1 : ∀ s ∈ rd.price_crossover_200, s.screener_type = "price_crossover_200")
    (t2 : ∀ s ∈ rd.one_hour_rsi, s.screener_type = "one_hour_rsi")
    (t3 : ∀ s ∈ rd.five_min_rsi, s.screener_type = "five_min_rsi") :
    ((stockInstances rd sym).map (fun s => s.screener_type)).Nodup := by
  rw [stockInstances_append, List.map_append, List.map_append]
  have key : ∀ (l : List Stock) (name : String),
      (l.map (fun s => s.symbol)).Nodup → (∀ s ∈ l, s.screener_type = name) →
      ((l.filter (fun s => s.symbol = sym)).map (fun s => s.screener_type)).Nodup
      ∧ (∀ x ∈ (l.filter (fun s => s.symbol = sym)).map (fun s => s.screener_type),
          x = name) := by
    intro l name hn ht
    constructor
    · apply nodup_of_length_le_one
      simpa using length_filter_le_one sym hn
    · intro x hx
      rcases List.mem_map.mp hx with ⟨s, hsf, hst⟩
      rw [← hst]
      exact ht s (List.mem_filter.mp hsf).1
  obtain ⟨n1, e1⟩ := key _ _ h1 t1
  obtain ⟨n2, e2⟩ := key _ _ h2 t2
  obtain ⟨n3, e3⟩ := key _ _ h3 t3
  rw [List.nodup_append, List.nodup_append]
  refine ⟨⟨n1, n2, ?_⟩, n3, ?_⟩
  · intro x hx1 hx2
    exact absurd ((e1 x hx1).symm.trans (e2 x hx2)) (by decide)
  · intro x hx12 hx3
    rcases List.mem_append.mp hx12 with hx1 | hx2
    · exact absurd ((e1 x hx1).symm.trans (e3 x hx3)) (by decide)
    · exact absurd ((e2 x hx2).symm.trans (e3 x hx3)) (by decide)

/-- **C3, amended.**  For every CombinedSignal, on any input
(intra-source repeats included): `matchCount` equals the length of
`sourcesMatched` and is at least 2; and — provided no symbol repeats
within one source's list and each stored record carries its own
source's identifier, as the scanner guarantees — `sourcesMatched`
contains no duplicate source identifiers.  (Without the no-repeat
proviso duplicates do occur, per the counterexample; the proviso
guards only the no-duplicates conjunct.) -/
theorem combined_signal_invariants (rd : Screeners)
    (c : CombinedStock) (hc : c ∈ find_stocks_in_multiple_screeners rd) :
    c.match_count = c.screeners_found_in.length
    ∧ 2 ≤ c.match_count
    ∧ ((rd.price_crossover_200.map (fun s => s.symbol)).Nodup →
        (rd.one_hour_rsi.map (fun s => s.symbol)).Nodup →
        (rd.five_min_rsi.map (fun s => s.symbol)).Nodup →
        (∀ s ∈ rd.price_crossover_200, s.screener_type = "price_crossover_200") →
        (∀ s ∈ rd.one_hour_rsi, s.screener_type = "one_hour_rsi") →
        (∀ s ∈ rd.five_min_rsi, s.screener_type = "five_min_rsi") →
        c.screeners_found_in.Nodup) := by
  rcases List.mem_filterMap.mp hc with ⟨sym, hsym, hmk⟩
  unfold mkCombined at hmk
  rcases hs : stockInstances rd sym with _ | ⟨b, r⟩
  · rw [hs] at hmk
    exact Option.noConfusion hmk
  · rw [hs] at hmk
    rw [← Option.some.inj hmk]
    refine ⟨rfl, ?_, ?_⟩
    · have hlen := two_le_stockInstances_length hsym
      rw [hs] at hlen
      simpa using hlen
    · intro h1 h2 h3 t1 t2 t3
      have hnodup := stockInstances_types_nodup rd sym h1 h2 h3 t1 t2 t3
      rw [hs] at hnodup
      exact hnodup

/-- **C3, witness.**  On Scenario A
(S1 = {AAA, BBB}, S2 = {BBB, CCC}, S3 = ∅) the consolidated BBB entry
has `match_count = 2 = |sourcesMatched|` and — its per-source symbol
lists being repeat-free and correctly stamped — duplicate-free
provenance `[price_crossover_200, one_hour_rsi]`; and on the
intra-source-repeat input (BBB twice in the first screener, once in
the second) the unconditional conjuncts still apply:
`match_count = 3 = |sourcesMatched| ≥ 2`. -/
theorem combined_signal_invariants_witness :
    ((2 : ℕ) = (["price_crossover_200", "one_hour_rsi"] : List String).length
      ∧ (["price_crossover_200", "one_hour_rsi"] : List String).Nodup)
    ∧ ((3 : ℕ) = (["price_crossover_200", "price_crossover_200",
          "one_hour_rsi"] : List String).length
      ∧ 2 ≤ (3 : ℕ)) := by
  have hA := combined_signal_invariants rdScenarioA
    { symbol := "BBB", price := 1, change := 1, volume := 1, stock_trend := "bullish",
      market_bias := "neutral",
      screeners_found_in := ["price_crossover_200", "one_hour_rsi"], match_count := 2 }
    (by decide)
  have hD := combined_signal_invariants rdDupWithinSource
    { symbol := "BBB", price := 1, change := 1, volume := 1, stock_trend := "bullish",
      market_bias := "neutral",
      screeners_found_in := ["price_crossover_200", "price_crossover_200", "one_hour_rsi"],
      match_count := 3 }
    (by decide)
  exact ⟨⟨hA.1, hA.2.2 (by decide) (by decide) (by decide) (by decide) (by decide) (by decide)⟩,
    hD.1, hD.2.1⟩

/-- Helper: writing one screener key leaves every other key's entry
unchanged. -/
theorem getScreener_setScreener_ne (rd : Screeners) (k k' : String) (l : List Stock)
    (h : k ≠ k') : getScreener (setScreener rd k' l) k = getScreener rd k := by
  unfold getScreener setScreener
  split_ifs <;> simp_all

/-- Helper: writing one of the three screener keys stores the value. -/
theorem getScreener_setScreener_self (rd : Screeners) (k : String) (l : List Stock)
    (hk : k ∈ screener_keys) : getScreener (setScreener rd k l) k = l := by
  simp only [screener_keys, List.mem_cons, List.mem_singleton, List.not_mem_nil,
    or_false] at hk
  rcases hk with rfl | rfl | rfl <;> simp [getScreener, setScreener]

/-- Helper: a failed load or scan leaves the whole results mapping
untouched. -/
theorem run_screener_failure_id (o : ScanOutcome) (k b : String) (rd : Screeners)
    (h : o = ScanOutcome.loadFailed ∨ o = ScanOutcome.scanFailed) :
    run_screener o k b rd = rd := by
  rcases h with rfl | rfl <;> rfl

/-- Helper: one screener's scan never touches another screener's entry. -/
theorem getScreener_run_screener_ne (o : ScanOutcome) (k' b : String) (rd : Screeners)
    (k : String) (h : k ≠ k') :
    getScreener (run_screener o k' b rd) k = getScreener rd k := by
  cases o with
  | loadFailed => rfl
  | scanFailed => rfl
  | extracted stocks =>
    by_cases he : stocks.isEmpty <;>
      simp [run_screener, he, getScreener_setScreener_ne rd k k' _ h]

/-- Helper: a screener's own entry after its scan step: kept on
failure, replaced by the filtered extraction otherwise (the
empty-extraction branch stores `[]`, which equals the filter of `[]`). -/
theorem getScreener_run_screener_self (o : ScanOutcome) (k b : String) (rd : Screeners)
    (hk : k ∈ screener_keys) :
    getScreener (run_screener o k b rd) k =
      match o with
      | ScanOutcome.loadFailed => getScreener rd k
      | ScanOutcome.scanFailed => getScreener rd k
      | ScanOutcome.extracted stocks => filter_stocks_by_market_trend stocks b := by
  cases o with
  | loadFailed => rfl
  | scanFailed => rfl
  | extracted stocks =>
    by_cases he : stocks.isEmpty
    · rw [List.isEmpty_iff] at he
      subst he
      simp [run_screener, getScreener_setScreener_self rd k [] hk,
        filter_stocks_by_market_trend]
    · simp [run_screener, he, getScreener_setScreener_self rd k _ hk]

/-- **C9 (confirmed).**  In one cycle's pass over the three screeners,
a source whose page load or scan trigger fails keeps its prior entry in
the per-source results mapping (empty on the first cycle, since the
initial mapping is empty), while every source whose scan succeeds gets
its entry replaced by that cycle's filtered extraction — each source's
final entry depends only on its own outcome, so one source's failure
never blocks the others' updates. -/
theorem run_screener_cycle_frame (outcomes : String → ScanOutcome) (b : String)
    (rd : Screeners) (key : String) (hkey : key ∈ screener_keys) :
    ((outcomes key = ScanOutcome.loadFailed ∨ outcomes key = ScanOutcome.scanFailed) →
      getScreener (runAllScreeners outcomes b rd) key = getScreener rd key)
    ∧ (∀ stocks, outcomes key = ScanOutcome.extracted stocks →
        getScreener (runAllScreeners outcomes b rd) key =
          filter_stocks_by_market_trend stocks b) := by
  have hunfold : runAllScreeners outcomes b rd =
      run_screener (outcomes "five_min_rsi") "five_min_rsi" b
        (run_screener (outcomes "one_hour_rsi") "one_hour_rsi" b
          (run_screener (outcomes "price_crossover_200") "price_crossover_200" b rd)) := rfl
  simp only [screener_keys, List.mem_cons, List.mem_singleton, List.not_mem_nil,
    or_false] at hkey
  rcases hkey with rfl | rfl | rfl
  · have hred : getScreener (runAllScreeners outcomes b rd) "price_crossover_200"
        = getScreener (run_screener (outcomes "price_crossover_200")
            "price_crossover_200" b rd) "price_crossover_200" := by
      rw [hunfold, getScreener_run_screener_ne _ _ _ _ _ (by decide),
        getScreener_run_screener_ne _ _ _ _ _ (by decide)]
    constructor
    · intro hfail
      rw [hred, run_screener_failure_id _ _ _ _ hfail]
    · intro stocks hst
      rw [hred, getScreener_run_screener_self _ _ _ _ (by decide), hst]
  · have hred : getScreener (runAllScreeners outcomes b rd) "one_hour_rsi"
        = getScreener (run_screener (outcomes "one_hour_rsi") "one_hour_rsi" b
            (run_screener (outcomes "price_crossover_200")
              "price_crossover_200" b rd)) "one_hour_rsi" := by
      rw [hunfold, getScreener_run_screener_ne _ _ _ _ _ (by decide)]
    constructor
    · intro hfail
      rw [hred, run_screener_failure_id _ _ _ _ hfail,
        getScreener_run_screener_ne _ _ _ _ _ (by decide)]
    · intro stocks hst
      rw [hred, getScreener_run_screener_self _ _ _ _ (by decide), hst]
  · constructor
    · intro hfail
      rw [hunfold, run_screener_failure_id _ _ _ _ hfail,
        getScreener_run_screener_ne _ _ _ _ _ (by decide),
        getScreener_run_screener_ne _ _ _ _ _ (by decide)]
    · intro stocks hst
      rw [hunfold, getScreener_run_screener_self _ _ _ _ (by decide), hst]

/-- The scan outcomes used by the C9 witness: the one-hour screener's
page load times out, the other two extract one record each. -/
def witnessOutcomes : String → ScanOutcome :=
  fun k => if k = "one_hour_rsi" then ScanOutcome.loadFailed
           else ScanOutcome.extracted [mkStock "AAA" k]

/-- **C9, witness.**  With the one-hour screener failing and the others
succeeding: the one-hour entry still holds its prior value while the
price-crossover entry was replaced by the new filtered extraction. -/
theorem run_screener_cycle_frame_witness :
    getScreener (runAllScreeners witnessOutcomes "neutral" rdScenarioA) "one_hour_rsi"
      = getScreener rdScenarioA "one_hour_rsi"
    ∧ getScreener (runAllScreeners witnessOutcomes "neutral" rdScenarioA) "price_crossover_200"
      = filter_stocks_by_market_trend [mkStock "AAA" "price_crossover_200"] "neutral" :=
  ⟨(run_screener_cycle_frame witnessOutcomes "neutral" rdScenarioA "one_hour_rsi"
      (by decide)).1 (Or.inl rfl),
   (run_screener_cycle_frame witnessOutcomes "neutral" rdScenarioA "price_crossover_200"
      (by decide)).2 [mkStock "AAA" "price_crossover_200"] rfl⟩

end Chartink
